import Mathlib

/-!
Verification of the qslideshow action-dispatch core (upyscripts/qslideshow).

Shallow embedding of the web-mode `SlideshowContext` session state and the
action `execute` methods from `qslideshow/actions.py`, the undo/redo stack
from `qslideshow/history.py`, the hotkey resolver from `qslideshow/hotkeys.py`,
the gesture detector from `qslideshow/gestures.py`, and the session lifecycle
from `qslideshow/webserver.py`.

Python integers are unbounded, so `Int`/`Nat` model them exactly; float
quantities that the modelled code paths only add, subtract, clamp and compare
are modelled as `ℚ`.
-/

namespace QSlideshow

/-- Web-mode session state: the fields of `SlideshowContext` (core.py) that the
modelled actions read or write, plus the per-session `image_order` permutation
that `WebSlideshow.create_session` (webserver.py) attaches.  `current_index`
is an `Int` because the Python code assigns `current_index += 1` before the
bounds check, and `total_images - 1` can be `-1` on an empty list. -/
structure Session where
  current_index : Int
  image_order : List Nat
  «repeat» : Bool
  shuffle : Bool
  is_paused : Bool
  repeat_count : Nat
  speed_seconds : ℚ
  always_on_top : Bool
deriving DecidableEq

/-- Python `l[i]` on a list: non-negative indices straight, negative indices
wrap once from the end, out-of-range raises (modelled as `none`). -/
def pyIndex {α : Type} (l : List α) (i : Int) : Option α :=
  if 0 ≤ i then l[i.toNat]?
  else if 0 ≤ i + l.length then l[(i + l.length).toNat]?
  else none

/-- Python `l.pop(i)`: remove the element at index `i` (negative wraps from
the end).  Out-of-range raises in Python; the modelled call sites guard the
index, and `eraseIdx` is the identity there. -/
def pyPop {α : Type} (l : List α) (i : Int) : List α :=
  if 0 ≤ i then l.eraseIdx i.toNat
  else l.eraseIdx (i + l.length).toNat

/-- `NavigateNextAction.execute` (actions.py lines 81-95), web mode: the
session has `image_order`, so `total_images = len(image_order)`.  The source
first increments `current_index`, then clamps or wraps. -/
def navigate_next (s : Session) : Session :=
  if s.current_index + 1 ≥ (s.image_order.length : Int) then
    if s.«repeat» then
      { s with current_index := 0, repeat_count := s.repeat_count + 1 }
    else
      { s with current_index := (s.image_order.length : Int) - 1 }
  else
    { s with current_index := s.current_index + 1 }

/-- `NavigatePreviousAction.execute` (actions.py lines 104-117), web mode. -/
def navigate_previous (s : Session) : Session :=
  if s.current_index - 1 < 0 then
    if s.«repeat» then
      { s with current_index := (s.image_order.length : Int) - 1 }
    else
      { s with current_index := 0 }
  else
    { s with current_index := s.current_index - 1 }

/-- One navigation request: forward or backward. -/
inductive NavStep : Type where
  | next : NavStep
  | prev : NavStep
deriving DecidableEq

/-- Execute a sequence of navigation requests against a session. -/
def runNav : List NavStep → Session → Session
  | [], s => s
  | NavStep.next :: rest, s => runNav rest (navigate_next s)
  | NavStep.prev :: rest, s => runNav rest (navigate_previous s)

theorem navigate_next_repeat (s : Session) :
    (navigate_next s).«repeat» = s.«repeat» := by
  unfold navigate_next; split_ifs <;> rfl

theorem navigate_next_order (s : Session) :
    (navigate_next s).image_order = s.image_order := by
  unfold navigate_next; split_ifs <;> rfl

theorem navigate_previous_repeat (s : Session) :
    (navigate_previous s).«repeat» = s.«repeat» := by
  unfold navigate_previous; split_ifs <;> rfl

theorem navigate_previous_order (s : Session) :
    (navigate_previous s).image_order = s.image_order := by
  unfold navigate_previous; split_ifs <;> rfl

/-- With `repeat = false`, one forward step keeps the index inside
`[0, len(order))` as long as the order is non-empty. -/
theorem navigate_next_mem (s : Session) (hrep : s.«repeat» = false)
    (hlen : 0 < s.image_order.length)
    (hlo : 0 ≤ s.current_index) (hhi : s.current_index < s.image_order.length) :
    0 ≤ (navigate_next s).current_index ∧
      (navigate_next s).current_index < s.image_order.length := by
  unfold navigate_next
  split_ifs with h1 h2
  · exact absurd h2 (by simp [hrep])
  · dsimp only
    omega
  · dsimp only
    omega

/-- With `repeat = false`, one backward step keeps the index inside
`[0, len(order))` as long as the order is non-empty. -/
theorem navigate_previous_mem (s : Session) (hrep : s.«repeat» = false)
    (hlen : 0 < s.image_order.length)
    (hlo : 0 ≤ s.current_index) (hhi : s.current_index < s.image_order.length) :
    0 ≤ (navigate_previous s).current_index ∧
      (navigate_previous s).current_index < s.image_order.length := by
  unfold navigate_previous
  split_ifs with h1 h2
  · exact absurd h2 (by simp [hrep])
  · dsimp only
    omega
  · dsimp only
    omega

theorem runNav_repeat (steps : List NavStep) (s : Session) :
    (runNav steps s).«repeat» = s.«repeat» := by
  induction steps generalizing s with
  | nil => rfl
  | cons a rest ih =>
    cases a
    · rw [runNav, ih, navigate_next_repeat]
    · rw [runNav, ih, navigate_previous_repeat]

theorem runNav_order (steps : List NavStep) (s : Session) :
    (runNav steps s).image_order = s.image_order := by
  induction steps generalizing s with
  | nil => rfl
  | cons a rest ih =>
    cases a
    · rw [runNav, ih, navigate_next_order]
    · rw [runNav, ih, navigate_previous_order]

theorem runNav_mem (steps : List NavStep) (s : Session) (hrep : s.«repeat» = false)
    (hlen : 0 < s.image_order.length)
    (hlo : 0 ≤ s.current_index) (hhi : s.current_index < s.image_order.length) :
    0 ≤ (runNav steps s).current_index ∧
      (runNav steps s).current_index < (runNav steps s).image_order.length := by
  induction steps generalizing s with
  | nil => exact ⟨hlo, by rw [runNav]; exact_mod_cast hhi⟩
  | cons a rest ih =>
    cases a
    · rw [runNav]
      obtain ⟨h1, h2⟩ := navigate_next_mem s hrep hlen hlo hhi
      exact ih (navigate_next s) (by rw [navigate_next_repeat, hrep])
        (by rw [navigate_next_order]; exact hlen) h1
        (by rw [navigate_next_order]; exact h2)
    · rw [runNav]
      obtain ⟨h1, h2⟩ := navigate_previous_mem s hrep hlen hlo hhi
      exact ih (navigate_previous s) (by rw [navigate_previous_repeat, hrep])
        (by rw [navigate_previous_order]; exact hlen) h1
        (by rw [navigate_previous_order]; exact h2)

/-- C1: with `repeat = false`, any sequence of navigate-next / navigate-previous
requests keeps `current_index` inside `[0, len(order))`, and at each boundary
the index saturates: at the last index a further `navigate_next` leaves
`current_index` unchanged, and at index `0` a further `navigate_previous`
leaves it unchanged — along every reachable state. -/
theorem nav_bounds_and_saturation (steps : List NavStep) (s : Session)
    (hrep : s.«repeat» = false) (hlen : 0 < s.image_order.length)
    (hlo : 0 ≤ s.current_index) (hhi : s.current_index < s.image_order.length) :
    (0 ≤ (runNav steps s).current_index ∧
      (runNav steps s).current_index < ((runNav steps s).image_order.length : Int)) ∧
    ((runNav steps s).current_index = ((runNav steps s).image_order.length : Int) - 1 →
      (navigate_next (runNav steps s)).current_index = (runNav steps s).current_index) ∧
    ((runNav steps s).current_index = 0 →
      (navigate_previous (runNav steps s)).current_index = (runNav steps s).current_index) := by
  obtain ⟨h1, h2⟩ := runNav_mem steps s hrep hlen hlo hhi
  have hr : (runNav steps s).«repeat» = false := by rw [runNav_repeat, hrep]
  refine ⟨⟨h1, by exact_mod_cast h2⟩, ?_, ?_⟩
  · intro htop
    unfold navigate_next
    split_ifs with ha hb
    · exact absurd hb (by simp [hr])
    · dsimp only
      omega
    · dsimp only
      omega
  · intro hbot
    unfold navigate_previous
    split_ifs with ha hb
    · exact absurd hb (by simp [hr])
    · dsimp only
      omega
    · dsimp only
      omega

/-- Witness for C1 at a concrete session and step sequence. -/
theorem nav_bounds_and_saturation_witness :
    ∃ s : Session, s.«repeat» = false ∧ 0 < s.image_order.length ∧
      0 ≤ s.current_index ∧ s.current_index < s.image_order.length ∧
      ((0 ≤ (runNav [NavStep.next, NavStep.next] s).current_index ∧
        (runNav [NavStep.next, NavStep.next] s).current_index <
          ((runNav [NavStep.next, NavStep.next] s).image_order.length : Int)) ∧
      ((runNav [NavStep.next, NavStep.next] s).current_index =
          ((runNav [NavStep.next, NavStep.next] s).image_order.length : Int) - 1 →
        (navigate_next (runNav [NavStep.next, NavStep.next] s)).current_index =
          (runNav [NavStep.next, NavStep.next] s).current_index) ∧
      ((runNav [NavStep.next, NavStep.next] s).current_index = 0 →
        (navigate_previous (runNav [NavStep.next, NavStep.next] s)).current_index =
          (runNav [NavStep.next, NavStep.next] s).current_index)) :=
  ⟨{ current_index := 0, image_order := [0, 1, 2], «repeat» := false,
     shuffle := false, is_paused := false, repeat_count := 0,
     speed_seconds := 3, always_on_top := false },
   by decide, by decide, by decide, by decide,
   nav_bounds_and_saturation [NavStep.next, NavStep.next] _
     (by decide) (by decide) (by decide) (by decide)⟩

/-- With `repeat = true` and `current_index + k` still short of the end,
`k` forward steps just add `k` to the index and change nothing else. -/
theorem navigate_next_iterate (k : Nat) (s : Session) (hrep : s.«repeat» = true)
    (hlo : 0 ≤ s.current_index)
    (hlt : s.current_index + k < s.image_order.length) :
    navigate_next^[k] s = { s with current_index := s.current_index + k } := by
  induction k generalizing s with
  | zero =>
    simp
  | succ k ih =>
    rw [Function.iterate_succ_apply]
    have hstep : navigate_next s = { s with current_index := s.current_index + 1 } := by
      unfold navigate_next
      split_ifs with h1
      · exfalso
        push_cast at hlt
        omega
      · rfl
    rw [hstep]
    rw [ih { s with current_index := s.current_index + 1 } hrep (by dsimp only; omega)
      (by dsimp only; push_cast at hlt ⊢; omega)]
    dsimp only
    congr 1
    push_cast
    ring

/-- With `repeat = true`, a forward step past the end wraps to index `0` and
bumps `repeat_count`. -/
theorem navigate_next_wrap (s : Session) (hrep : s.«repeat» = true)
    (h : s.current_index + 1 ≥ (s.image_order.length : Int)) :
    navigate_next s =
      { s with current_index := 0, repeat_count := s.repeat_count + 1 } := by
  unfold navigate_next
  rw [if_pos h, if_pos hrep]

/-- C7: with `repeat = true` over `N > 0` items, exactly `N` forward calls
from index `0` bring `current_index` back to `0` and increase `repeat_count`
by exactly one; and `navigate_previous` never changes `repeat_count`. -/
theorem repeat_forward_wrap (s : Session) (hrep : s.«repeat» = true)
    (hidx : s.current_index = 0) (hlen : 0 < s.image_order.length) :
    ((navigate_next^[s.image_order.length] s).current_index = 0 ∧
      (navigate_next^[s.image_order.length] s).repeat_count = s.repeat_count + 1) ∧
    ∀ t : Session, (navigate_previous t).repeat_count = t.repeat_count := by
  constructor
  · obtain ⟨n, hn⟩ : ∃ n, s.image_order.length = n + 1 :=
      ⟨s.image_order.length - 1, by omega⟩
    rw [hn, Function.iterate_succ_apply']
    have hmid : navigate_next^[n] s = { s with current_index := s.current_index + n } := by
      exact navigate_next_iterate n s hrep (by omega) (by rw [hn]; push_cast; omega)
    rw [hmid, navigate_next_wrap _ (by exact hrep)
      (by dsimp only; rw [hn]; push_cast; omega)]
    exact ⟨rfl, rfl⟩
  · intro t
    unfold navigate_previous
    split_ifs <;> rfl

/-- Witness for C7 at a concrete three-item session. -/
theorem repeat_forward_wrap_witness :
    ∃ s : Session, s.«repeat» = true ∧ s.current_index = 0 ∧
      0 < s.image_order.length ∧
      (((navigate_next^[s.image_order.length] s).current_index = 0 ∧
        (navigate_next^[s.image_order.length] s).repeat_count = s.repeat_count + 1) ∧
      ∀ t : Session, (navigate_previous t).repeat_count = t.repeat_count) :=
  ⟨{ current_index := 0, image_order := [0, 1, 2], «repeat» := true,
     shuffle := false, is_paused := false, repeat_count := 0,
     speed_seconds := 3, always_on_top := false },
   rfl, rfl, by decide,
   repeat_forward_wrap _ rfl rfl (by decide)⟩

/-- `ToggleShuffleAction.execute` (actions.py lines 163-204), web-mode branch
(the session has `image_order`).  `perm` stands for the contents of
`image_order` after `random.shuffle(image_order)`; the theorems assume only
that it is a rearrangement of the list handed to the RNG, which is all
`random.shuffle` guarantees.  Turning shuffle off never consults the RNG. -/
def toggle_shuffle (perm : List Nat) (image_paths : List String) (s : Session) : Session :=
  let s1 := { s with shuffle := !s.shuffle }
  if s1.shuffle then
    -- Turning on: remember the real index shown now, shuffle, then find it again.
    let current_real_idx : Option Nat :=
      if s.current_index < (s.image_order.length : Int) then
        pyIndex s.image_order s.current_index
      else none
    let new_index : Int :=
      match current_real_idx with
      | some r => if r ∈ perm then ((perm.indexOf r : Nat) : Int) else 0
      | none => 0
    { s1 with image_order := perm, current_index := new_index }
  else
    -- Turning off: reset to sequential order; the real index becomes the index.
    let current_real_idx : Nat :=
      if s.current_index < (s.image_order.length : Int) then
        (pyIndex s.image_order s.current_index).getD 0
      else 0
    { s1 with image_order := List.range image_paths.length,
              current_index := (current_real_idx : Int) }

/-- The item reference the session currently displays: `order[current_index]`. -/
def visible_item (s : Session) : Option Nat :=
  pyIndex s.image_order s.current_index

theorem pyIndex_natCast {α : Type} (l : List α) (j : Nat) (hj : j < l.length) :
    pyIndex l (j : Int) = some (l.get ⟨j, hj⟩) := by
  unfold pyIndex
  rw [if_pos (by positivity)]
  simp [List.getElem?_eq_getElem hj]

/-- On a fresh (unshuffled) in-range index, turning shuffle on installs the
chosen permutation and relocates the index to the old visible item. -/
theorem toggle_shuffle_on_eq (perm : List Nat) (image_paths : List String)
    (s : Session) (hshuf : s.shuffle = false) (j : Nat) (hj : s.current_index = j)
    (hjlen : j < s.image_order.length)
    (hmem : s.image_order.get ⟨j, hjlen⟩ ∈ perm) :
    toggle_shuffle perm image_paths s =
      { s with shuffle := true, image_order := perm,
               current_index := ((perm.indexOf (s.image_order.get ⟨j, hjlen⟩) : Nat) : Int) } := by
  have hmem2 : s.image_order[j] ∈ perm := hmem
  unfold toggle_shuffle
  rw [hshuf, hj]
  simp only [Bool.not_false, if_pos]
  rw [if_pos (by exact_mod_cast hjlen), pyIndex_natCast s.image_order j hjlen]
  simp [hmem2, List.get_eq_getElem]

/-- On a shuffled in-range index, turning shuffle off resets to sequential
order and makes the old visible item the new index. -/
theorem toggle_shuffle_off_eq (perm : List Nat) (image_paths : List String)
    (s : Session) (hshuf : s.shuffle = true) (j : Nat) (hj : s.current_index = j)
    (hjlen : j < s.image_order.length) :
    toggle_shuffle perm image_paths s =
      { s with shuffle := false, image_order := List.range image_paths.length,
               current_index := ((s.image_order.get ⟨j, hjlen⟩ : Nat) : Int) } := by
  unfold toggle_shuffle
  rw [hshuf, hj]
  simp only [Bool.not_true, Bool.false_eq_true, if_false]
  rw [if_pos (by exact_mod_cast hjlen), pyIndex_natCast s.image_order j hjlen]
  simp

/-- C4: toggling shuffle on (with any permutation the RNG may pick) and then
off again preserves the visible item `order[current_index]`, for any starting
index in range, provided the session order is a permutation of `[0, N)`. -/
theorem shuffle_on_off_preserves_visible (s : Session) (perm perm2 : List Nat)
    (image_paths : List String) (hshuf : s.shuffle = false)
    (hlo : 0 ≤ s.current_index) (hhi : s.current_index < s.image_order.length)
    (horder : s.image_order.Perm (List.range image_paths.length))
    (hperm : perm.Perm s.image_order) :
    visible_item (toggle_shuffle perm2 image_paths (toggle_shuffle perm image_paths s)) =
      visible_item s := by
  obtain ⟨j, hj⟩ : ∃ j : Nat, s.current_index = (j : Int) :=
    ⟨s.current_index.toNat, (Int.toNat_of_nonneg hlo).symm⟩
  have hjlen : j < s.image_order.length := by rw [hj] at hhi; exact_mod_cast hhi
  set r := s.image_order.get ⟨j, hjlen⟩ with hr
  have hrmem : r ∈ perm := hperm.mem_iff.mpr (by rw [hr, List.get_eq_getElem]; exact List.getElem_mem _)
  have hstep1 := toggle_shuffle_on_eq perm image_paths s hshuf j hj hjlen hrmem
  rw [hstep1]
  have hidx : perm.indexOf r < perm.length := List.indexOf_lt_length.mpr hrmem
  have hstep2 := toggle_shuffle_off_eq perm2 image_paths
    { s with shuffle := true, image_order := perm,
             current_index := ((perm.indexOf r : Nat) : Int) }
    rfl (perm.indexOf r) rfl hidx
  rw [hstep2]
  have hget : perm.get ⟨perm.indexOf r, hidx⟩ = r := List.indexOf_get hidx
  have hrlt : r < image_paths.length := by
    have : r ∈ List.range image_paths.length :=
      horder.mem_iff.mp (by rw [hr, List.get_eq_getElem]; exact List.getElem_mem _)
    simpa using this
  unfold visible_item
  dsimp only
  rw [hget, hj, pyIndex_natCast _ r (by simpa using hrlt),
    pyIndex_natCast _ j hjlen]
  simp [hr]

/-- Witness for C4: order `[1, 0]` over two items, index `0`, shuffled to
`[0, 1]` and back. -/
theorem shuffle_on_off_preserves_visible_witness :
    ∃ (s : Session) (perm perm2 : List Nat) (image_paths : List String),
      s.shuffle = false ∧ 0 ≤ s.current_index ∧
      s.current_index < s.image_order.length ∧
      s.image_order.Perm (List.range image_paths.length) ∧
      perm.Perm s.image_order ∧
      visible_item (toggle_shuffle perm2 image_paths (toggle_shuffle perm image_paths s)) =
        visible_item s :=
  ⟨{ current_index := 0, image_order := [1, 0], «repeat» := false,
     shuffle := false, is_paused := false, repeat_count := 0,
     speed_seconds := 3, always_on_top := false },
   [0, 1], [1, 0], ["a", "b"],
   rfl, by decide, by decide, by decide, by decide,
   shuffle_on_off_preserves_visible _ [0, 1] [1, 0] ["a", "b"]
     rfl (by decide) (by decide) (by decide) (by decide)⟩

/-- `WebSlideshow.create_session` (webserver.py lines 675-700): fresh session
at index `0` over a private `image_order`, which is `range(len(image_paths))`,
shuffled (`perm`, the RNG's output on that range) iff `slideshow.shuffle` is
configured. -/
def create_session (image_paths : List String) (shuffle_cfg : Bool) (perm : List Nat)
    (speed : ℚ) (repeat_cfg paused_cfg always_on_top_cfg : Bool) : Session :=
  { current_index := 0,
    image_order := if shuffle_cfg then perm else List.range image_paths.length,
    «repeat» := repeat_cfg,
    shuffle := shuffle_cfg,
    is_paused := paused_cfg,
    repeat_count := 0,
    speed_seconds := speed,
    always_on_top := always_on_top_cfg }

/-- Whichever branch `toggle_shuffle` takes, the resulting `image_order` is
the chosen permutation (turning on) or the identity order (turning off). -/
theorem toggle_shuffle_image_order (perm : List Nat) (image_paths : List String)
    (s : Session) :
    (toggle_shuffle perm image_paths s).image_order =
      if s.shuffle = true then List.range image_paths.length else perm := by
  unfold toggle_shuffle
  cases hs : s.shuffle <;> simp [hs]

/-- C8: `image_order` is a permutation of `[0, N)` (`N = len(image_paths)`)
right after session creation, and executing `toggle_shuffle` preserves that
invariant, whatever permutation the RNG picks. -/
theorem order_is_permutation (image_paths : List String) :
    (∀ (shuffle_cfg : Bool) (perm : List Nat) (speed : ℚ) (r p a : Bool),
      perm.Perm (List.range image_paths.length) →
      (create_session image_paths shuffle_cfg perm speed r p a).image_order.Perm
        (List.range image_paths.length)) ∧
    (∀ (s : Session) (perm : List Nat),
      s.image_order.Perm (List.range image_paths.length) →
      perm.Perm s.image_order →
      (toggle_shuffle perm image_paths s).image_order.Perm
        (List.range image_paths.length)) := by
  constructor
  · intro shuffle_cfg perm speed r p a hperm
    unfold create_session
    dsimp only
    split_ifs with h
    · exact hperm
    · exact List.Perm.refl _
  · intro s perm horder hperm
    rw [toggle_shuffle_image_order]
    cases hs : s.shuffle
    · rw [if_neg (by simp [hs])]
      exact hperm.trans horder
    · rw [if_pos (by simp [hs])]

/-- Witness for C8 at a two-item list. -/
theorem order_is_permutation_witness :
    ([1, 0] : List Nat).Perm (List.range (["a", "b"] : List String).length) ∧
    (create_session ["a", "b"] true [1, 0] 3 false false false).image_order.Perm
      (List.range (["a", "b"] : List String).length) :=
  ⟨by decide,
   (order_is_permutation ["a", "b"]).1 true [1, 0] 3 false false false (by decide)⟩

/-- The special-case key table of `HotkeyManager._normalize_key`
(hotkeys.py lines 57-70). -/
def key_map : List (String × String) :=
  [("space", " "), ("Return", "Enter"), ("plus", "+"), ("minus", "-"),
   ("equal", "="), ("Left", "ArrowLeft"), ("Right", "ArrowRight"),
   ("Up", "ArrowUp"), ("Down", "ArrowDown"), ("PageUp", "Page_Up"),
   ("PageDown", "Page_Down"), ("Escape", "Esc")]

/-- `HotkeyManager._normalize_key` (hotkeys.py lines 54-80): special-case the
symbolic names, then lowercase anything longer than one character. -/
def normalize_key (key : String) : String :=
  let normalized := (key_map.lookup key).getD key
  if normalized.length > 1 then normalized.toLower else normalized

/-- `HotkeyManager.get_action_for_key` (hotkeys.py lines 82-102).  The
manager's `hotkey_map` dict is modelled as an association list.  With
modifiers held, the lowercased non-empty modifier names are sorted (Python
`sorted`, a stable comparison sort — any sort agrees on a list of strings),
joined with `+` before the key, normalized, and looked up; if that finds no
binding, the bare key is tried. -/
def get_action_for_key (hotkey_map : List (String × String)) (key : String)
    (modifiers : List String) : Option String :=
  let attempt : Option String :=
    if modifiers ≠ [] then
      let sorted_modifiers :=
        List.insertionSort (fun a b : String => a ≤ b)
          ((modifiers.filter (fun m => m ≠ "")).map String.toLower)
      if sorted_modifiers ≠ [] then
        hotkey_map.lookup (normalize_key (String.intercalate "+" (sorted_modifiers ++ [key])))
      else none
    else none
  match attempt with
  | some a => some a
  | none => hotkey_map.lookup (normalize_key key)

/-- Sorting by a linear order is a function of the multiset of elements. -/
theorem insertionSort_eq_of_perm {l l' : List String} (h : l.Perm l') :
    List.insertionSort (fun a b : String => a ≤ b) l =
      List.insertionSort (fun a b : String => a ≤ b) l' :=
  List.eq_of_perm_of_sorted
    ((List.perm_insertionSort _ l).trans (h.trans (List.perm_insertionSort _ l').symm))
    (List.sorted_insertionSort _ l) (List.sorted_insertionSort _ l')

/-- C9: hotkey resolution does not depend on the order in which the modifier
list is supplied: any two orderings of the same modifiers resolve a key to
the same action (or to the same absence of a binding), for every binding
table. -/
theorem hotkey_modifier_order_independent (hotkey_map : List (String × String))
    (key : String) (mods mods' : List String) (h : mods.Perm mods') :
    get_action_for_key hotkey_map key mods =
      get_action_for_key hotkey_map key mods' := by
  unfold get_action_for_key
  by_cases hm : mods = []
  · have hm' : mods' = [] := ((hm ▸ h : ([] : List String).Perm mods').symm).eq_nil
    rw [hm, hm']
  · have hm' : mods' ≠ [] := fun e => hm ((e ▸ h : mods.Perm []).eq_nil)
    have hfilter : ((mods.filter (fun m => m ≠ "")).map String.toLower).Perm
        ((mods'.filter (fun m => m ≠ "")).map String.toLower) :=
      (h.filter _).map _
    have hsort := insertionSort_eq_of_perm hfilter
    rw [if_pos hm, if_pos hm', hsort]

/-- Witness for C9: `{ctrl, shift}+s` and `{shift, ctrl}+s` resolve alike. -/
theorem hotkey_modifier_order_independent_witness :
    (["ctrl", "shift"] : List String).Perm ["shift", "ctrl"] ∧
    get_action_for_key [("ctrl+shift+s", "remember")] "s" ["ctrl", "shift"] =
      get_action_for_key [("ctrl+shift+s", "remember")] "s" ["shift", "ctrl"] :=
  ⟨by decide,
   hotkey_modifier_order_independent [("ctrl+shift+s", "remember")] "s"
     ["ctrl", "shift"] ["shift", "ctrl"] (by decide)⟩

/-- An `UndoableAction` (actions.py lines 449-455): a named state transformer
whose `get_undo_action` may supply an inverse action (itself possibly
undoable in turn, hence the recursion).  `σ` is the slideshow-context type
the action mutates. -/
inductive UndoableAction (σ : Type) : Type where
  | mk (name : String) (run : σ → σ) (get_undo_action : Option (UndoableAction σ))

def UndoableAction.name {σ : Type} : UndoableAction σ → String
  | UndoableAction.mk n _ _ => n

def UndoableAction.run {σ : Type} : UndoableAction σ → σ → σ
  | UndoableAction.mk _ r _ => r

def UndoableAction.get_undo_action {σ : Type} :
    UndoableAction σ → Option (UndoableAction σ)
  | UndoableAction.mk _ _ u => u

/-- Result dictionary of `ActionHistory.undo` (history.py): the `success`
flag plus the `error` or `undone` entry. -/
structure UndoResult where
  success : Bool
  error : Option String
  undone : Option String
deriving DecidableEq

/-- `ActionHistory` (history.py lines 16-22).  The Python `deque(maxlen=...)`
holds the oldest action at its left end and appends/pops at its right end;
it is modelled as a list with the MOST RECENT action first, so `append` is
`cons` (dropping overflow from the far end) and `pop` takes the head. -/
structure ActionHistory (σ : Type) where
  history : List (UndoableAction σ)
  redo_stack : List (UndoableAction σ)
  max_history : Nat

/-- `ActionHistory.execute` (history.py lines 24-39): run the action, append
it to the history (the bounded deque drops the oldest entry on overflow) and
clear the redo stack. -/
def ActionHistory.execute {σ : Type} (h : ActionHistory σ) (action : UndoableAction σ)
    (context : σ) : ActionHistory σ × σ :=
  ({ h with history := (action :: h.history).take h.max_history, redo_stack := [] },
   action.run context)

/-- `ActionHistory.undo` (history.py lines 41-63): pop the most recent action
first; if it has an inverse, execute the inverse and push the original onto
the redo stack; otherwise report failure (the popped action stays popped). -/
def ActionHistory.undo {σ : Type} (h : ActionHistory σ) (context : σ) :
    ActionHistory σ × σ × UndoResult :=
  match h.history with
  | [] => (h, context, { success := false, error := some "Nothing to undo", undone := none })
  | action :: rest =>
    match action.get_undo_action with
    | some undo_action =>
        ({ h with history := rest, redo_stack := action :: h.redo_stack },
         undo_action.run context,
         { success := true, error := none, undone := some action.name })
    | none =>
        ({ h with history := rest }, context,
         { success := false,
           error := some ("Action " ++ action.name ++ " cannot be undone"),
           undone := none })

/-- C6: `undo` pops the most recent action; on an empty history it returns an
error result and changes nothing; if the popped action declares no inverse it
returns an error result and leaves the session untouched; otherwise it runs
the inverse against the session, pushes the original action onto the redo
stack, and reports success naming the undone action. -/
theorem undo_spec {σ : Type} (h : ActionHistory σ) (context : σ) :
    (h.history = [] →
      h.undo context =
        (h, context, { success := false, error := some "Nothing to undo", undone := none })) ∧
    (∀ action rest, h.history = action :: rest →
      (action.get_undo_action = none →
        (h.undo context).2.2.success = false ∧ (h.undo context).2.1 = context ∧
          (h.undo context).1.history = rest) ∧
      (∀ undo_action, action.get_undo_action = some undo_action →
        (h.undo context).2.2.success = true ∧
          (h.undo context).2.1 = undo_action.run context ∧
          (h.undo context).1.history = rest ∧
          (h.undo context).1.redo_stack = action :: h.redo_stack ∧
          (h.undo context).2.2.undone = some action.name)) := by
  constructor
  · intro hnil
    unfold ActionHistory.undo
    rw [hnil]
  · intro action rest hcons
    constructor
    · intro hno
      unfold ActionHistory.undo
      rw [hcons]
      dsimp only
      rw [hno]
      exact ⟨rfl, rfl, rfl⟩
    · intro undo_action hyes
      unfold ActionHistory.undo
      rw [hcons]
      dsimp only
      rw [hyes]
      exact ⟨rfl, rfl, rfl, rfl, rfl⟩

/-- A sample inverse action for the history witnesses. -/
def unbump_action : UndoableAction Nat :=
  UndoableAction.mk "unbump" (fun n => n - 1) none

/-- A sample undoable action (its inverse is `unbump_action`). -/
def bump_action : UndoableAction Nat :=
  UndoableAction.mk "bump" (fun n => n + 1) (some unbump_action)

/-- A sample action declaring no inverse. -/
def stuck_action : UndoableAction Nat :=
  UndoableAction.mk "stuck" (fun n => n * 2) none

/-- Witness for C6: a one-element history whose action has an inverse. -/
theorem undo_spec_witness :
    ∃ (h : ActionHistory Nat) (action : UndoableAction Nat)
      (undo_action : UndoableAction Nat),
      h.history = [action] ∧ action.get_undo_action = some undo_action ∧
      ((h.undo 7).2.2.success = true ∧
        (h.undo 7).2.1 = undo_action.run 7 ∧
        (h.undo 7).1.history = [] ∧
        (h.undo 7).1.redo_stack = action :: h.redo_stack ∧
        (h.undo 7).2.2.undone = some action.name) := by
  refine ⟨⟨[bump_action], [], 50⟩, bump_action, unbump_action, rfl, rfl, ?_⟩
  exact ((undo_spec ⟨[bump_action], [], 50⟩ 7).2 bump_action [] rfl).2 unbump_action rfl

/-- C10: when `undo` pops an action that declares no inverse, the error is
not atomic: the popped action is gone for good — the new history is exactly
the old tail (one entry shorter), the popped action is pushed onto neither
stack, the redo stack is untouched, and the result reports failure. -/
theorem undo_failure_drops_action {σ : Type} (h : ActionHistory σ) (context : σ)
    (action : UndoableAction σ) (rest : List (UndoableAction σ))
    (hcons : h.history = action :: rest) (hno : action.get_undo_action = none) :
    (h.undo context).1.history = rest ∧
      (h.undo context).1.history.length + 1 = h.history.length ∧
      (h.undo context).1.redo_stack = h.redo_stack ∧
      (h.undo context).2.1 = context ∧
      (h.undo context).2.2.success = false := by
  unfold ActionHistory.undo
  rw [hcons]
  dsimp only
  rw [hno]
  exact ⟨rfl, rfl, rfl, rfl, rfl⟩

/-- Witness for C10: a two-element history whose head has no inverse. -/
theorem undo_failure_drops_action_witness :
    ∃ (h : ActionHistory Nat) (action : UndoableAction Nat)
      (rest : List (UndoableAction Nat)),
      h.history = action :: rest ∧ action.get_undo_action = none ∧
      ((h.undo 3).1.history = rest ∧
        (h.undo 3).1.history.length + 1 = h.history.length ∧
        (h.undo 3).1.redo_stack = h.redo_stack ∧
        (h.undo 3).2.1 = 3 ∧
        (h.undo 3).2.2.success = false) := by
  refine ⟨⟨[stuck_action, unbump_action], [], 50⟩, stuck_action,
    [unbump_action], rfl, rfl, ?_⟩
  exact undo_failure_drops_action ⟨[stuck_action, unbump_action], [], 50⟩ 3
    stuck_action [unbump_action] rfl rfl

/-- One touch point as delivered to `GestureDetector.process_touch_event`
(a dict with keys `x`, `y`, `id`). -/
structure Touch where
  x : ℚ
  y : ℚ
  id : Int
deriving DecidableEq

/-- `GestureDetector` state (gestures.py lines 18-32): episode bookkeeping
plus the four configurable thresholds. -/
structure GestureDetector where
  touch_start_time : ℚ
  touch_start_pos : ℚ × ℚ
  touch_points : List Touch
  last_tap_time : ℚ
  tap_count : Int
  swipe_threshold : ℚ
  long_press_duration : ℚ
  double_tap_interval : ℚ
  pinch_threshold : ℚ
deriving DecidableEq

/-- `GestureDetector.__init__`: zeroed bookkeeping and the default
thresholds (50 px swipe, 0.5 s long press, 0.3 s double tap, 30 px pinch). -/
def GestureDetector.init : GestureDetector :=
  { touch_start_time := 0, touch_start_pos := (0, 0), touch_points := [],
    last_tap_time := 0, tap_count := 0, swipe_threshold := 50,
    long_press_duration := 1/2, double_tap_interval := 3/10,
    pinch_threshold := 30 }

/-- `GestureDetector.process_touch_event` (gestures.py lines 34-126).
`current_time` stands for `time.time()` at the call.  `calc_dist` stands for
`_calculate_distance` (a Euclidean square root on floats, which has no exact
rational form); it is passed as a parameter and is only ever consulted on the
two-point `touchmove` branch.  Returns the updated detector state and the
detected gesture, if any. -/
def process_touch_event (calc_dist : Touch → Touch → ℚ) (current_time : ℚ)
    (event_type : String) (touches : List Touch) (d : GestureDetector) :
    GestureDetector × Option String :=
  if event_type = "touchstart" then
    let d1 := { d with
      touch_start_time := current_time,
      touch_start_pos :=
        match touches with
        | t :: _ => (t.x, t.y)
        | [] => d.touch_start_pos,
      touch_points := touches }
    if touches.length = 3 then (d1, some "three_finger_tap") else (d1, none)
  else if event_type = "touchmove" then
    -- Requires len(touch_points) == 2 and len(touches) == 2.
    match d.touch_points, touches with
    | [p0, p1], [t0, t1] =>
      let initial_distance := calc_dist p0 p1
      let current_distance := calc_dist t0 t1
      if |current_distance - initial_distance| > d.pinch_threshold then
        if current_distance > initial_distance then (d, some "pinch_out")
        else (d, some "pinch_in")
      else
        let avg_delta_x := ((t0.x - p0.x) + (t1.x - p1.x)) / 2
        let avg_delta_y := ((t0.y - p0.y) + (t1.y - p1.y)) / 2
        if |avg_delta_x| > d.swipe_threshold then
          if avg_delta_x > 0 then (d, some "two_finger_swipe_right")
          else (d, some "two_finger_swipe_left")
        else if |avg_delta_y| > d.swipe_threshold then
          if avg_delta_y > 0 then (d, some "two_finger_swipe_down")
          else (d, some "two_finger_swipe_up")
        else (d, none)
    | _, _ => (d, none)
  else if event_type = "touchend" then
    let duration := current_time - d.touch_start_time
    -- Requires len(touches) == 0 and len(touch_points) == 1; the inner
    -- Python `if self.touch_points:` is then always true.
    match touches, d.touch_points with
    | [], [p0] =>
      if duration > d.long_press_duration then (d, some "long_press")
      else
        let delta_x := p0.x - d.touch_start_pos.1
        let delta_y := p0.y - d.touch_start_pos.2
        if |delta_x| > d.swipe_threshold then
          if delta_x > 0 then (d, some "swipe_right") else (d, some "swipe_left")
        else if |delta_y| > d.swipe_threshold then
          if delta_y > 0 then (d, some "swipe_down") else (d, some "swipe_up")
        else
          if current_time - d.last_tap_time < d.double_tap_interval then
            if d.tap_count + 1 = 2 then
              ({ d with tap_count := 0 }, some "double_tap")
            else ({ d with tap_count := d.tap_count + 1 }, none)
          else
            ({ d with tap_count := 1, last_tap_time := current_time }, none)
    | _, _ => (d, none)
  else (d, none)

/-- C5 fails on the code: in the episode `touchstart` at (200,200), a
`touchmove` to (100,200), and `touchend` (which, like the mouse adapter's
`mouseup`, carries an empty remaining-touch list), no event yields a gesture
— in particular not `swipe_left`.  The single-point `touchmove` branch never
updates `touch_points`, so at release the recorded point still equals the
start position and the net displacement computes to zero.  The final
conjunct shows the intended classification is reachable only by overwriting
`touch_points` with the end position by hand, exactly as the repository's
own tests do. -/
theorem single_finger_swipe_undetected :
    ∀ calc_dist : Touch → Touch → ℚ,
      (process_touch_event calc_dist 0 "touchstart"
          [⟨200, 200, 0⟩] GestureDetector.init).2 = none ∧
      (process_touch_event calc_dist (1/20) "touchmove" [⟨100, 200, 0⟩]
          (process_touch_event calc_dist 0 "touchstart"
            [⟨200, 200, 0⟩] GestureDetector.init).1).2 = none ∧
      (process_touch_event calc_dist (1/20) "touchmove" [⟨100, 200, 0⟩]
          (process_touch_event calc_dist 0 "touchstart"
            [⟨200, 200, 0⟩] GestureDetector.init).1).1.touch_points =
        [⟨200, 200, 0⟩] ∧
      (process_touch_event calc_dist (1/10) "touchend" []
          (process_touch_event calc_dist (1/20) "touchmove" [⟨100, 200, 0⟩]
            (process_touch_event calc_dist 0 "touchstart"
              [⟨200, 200, 0⟩] GestureDetector.init).1).1).2 = none ∧
      (process_touch_event calc_dist (1/10) "touchend" []
          { (process_touch_event calc_dist 0 "touchstart"
              [⟨200, 200, 0⟩] GestureDetector.init).1 with
            touch_points := [⟨100, 200, 0⟩] }).2 = some "swipe_left" := by
  intro calc_dist
  have hs1 : ¬("touchend" = "touchstart") := by decide
  have hs2 : ¬("touchend" = "touchmove") := by decide
  refine ⟨rfl, rfl, rfl, ?_, ?_⟩
  · have h2 : (process_touch_event calc_dist (1/20) "touchmove" [⟨100, 200, 0⟩]
        (process_touch_event calc_dist 0 "touchstart"
          [⟨200, 200, 0⟩] GestureDetector.init).1).1 =
        ⟨0, (200, 200), [⟨200, 200, 0⟩], 0, 0, 50, 1/2, 3/10, 30⟩ := rfl
    rw [h2]
    unfold process_touch_event
    rw [if_neg hs1, if_neg hs2, if_pos rfl]
    norm_num
  · have h3 : ({ (process_touch_event calc_dist 0 "touchstart"
          [⟨200, 200, 0⟩] GestureDetector.init).1 with
        touch_points := ([⟨100, 200, 0⟩] : List Touch) } : GestureDetector) =
        ⟨0, (200, 200), [⟨100, 200, 0⟩], 0, 0, 50, 1/2, 3/10, 30⟩ := rfl
    rw [h3]
    unfold process_touch_event
    rw [if_neg hs1, if_neg hs2, if_pos rfl]
    norm_num

/-- `TogglePauseAction.execute` (actions.py lines 127-129). -/
def toggle_pause (s : Session) : Session :=
  { s with is_paused := !s.is_paused }

/-- `ToggleRepeatAction.execute` (actions.py lines 152-154). -/
def toggle_repeat (s : Session) : Session :=
  { s with «repeat» := !s.«repeat» }

/-- `IncreaseSpeedAction.execute` (actions.py lines 256-258). -/
def increase_speed (s : Session) : Session :=
  { s with speed_seconds := min 60 (s.speed_seconds + 1) }

/-- `DecreaseSpeedAction.execute` (actions.py lines 267-269). -/
def decrease_speed (s : Session) : Session :=
  { s with speed_seconds := max (1/2) (s.speed_seconds - 1) }

/-- `ExternalToolAction.execute` (actions.py lines 478-521) after the
subprocess has finished; `returncode` is the tool's exit code.  Exit code `1`
removes the entry at `current_index` from the `image_paths` LIST THE CALL
RECEIVED — in web mode that is the list every session shares — and clamps
`current_index` against the shortened list; exit code `0` and error codes
leave all state untouched (they only shape the result dict).  The guards
`tool_path exists` and `image_paths non-empty` precede the subprocess call. -/
def external_tool_execute (returncode : Int) (image_paths : List String)
    (s : Session) : List String × Session :=
  if image_paths = [] then (image_paths, s)
  else if returncode = 1 then
    let new_paths := pyPop image_paths s.current_index
    if s.current_index ≥ (new_paths.length : Int) then
      (new_paths, { s with current_index := max 0 ((new_paths.length : Int) - 1) })
    else (new_paths, s)
  else (image_paths, s)

/-- `ActionHistory.redo` (history.py lines 65-82): pop the redo stack,
re-execute, append back onto the (bounded) history. -/
def ActionHistory.redo {σ : Type} (h : ActionHistory σ) (context : σ) :
    ActionHistory σ × σ × Bool :=
  match h.redo_stack with
  | [] => (h, context, false)
  | action :: rest =>
      ({ h with redo_stack := rest,
                history := (action :: h.history).take h.max_history },
       action.run context, true)

/-- `WebSlideshow` server state (webserver.py): the `image_paths` list shared
by every session, the `sessions` dict, and the single `ActionHistory` created
once in `_initialize_action_system` (lines 653-665) — the registered
`UndoAction`/`RedoAction` close over that one instance, whichever session
invokes them. -/
structure WebState where
  image_paths : List String
  sessions : List (String × Session)
  history : ActionHistory Session

/-- Replace the session stored under `sid` by `f` of it (mutating the Python
session object in place leaves the dict's other entries untouched). -/
def update_session (sessions : List (String × Session)) (sid : String)
    (f : Session → Session) : List (String × Session) :=
  sessions.map (fun p => if p.1 = sid then (p.1, f p.2) else p)

/-- The actions executable through the web endpoints (`handle_action` /
`handle_execute_action` call `action.execute(session)` on the registry entry
when `can_execute('web')` holds).  `toggle_shuffle` carries the permutation
the RNG produces; `external_tool` carries the subprocess exit code. -/
inductive WebAction : Type where
  | navigate_next : WebAction
  | navigate_previous : WebAction
  | toggle_pause : WebAction
  | toggle_repeat : WebAction
  | toggle_shuffle (perm : List Nat) : WebAction
  | increase_speed : WebAction
  | decrease_speed : WebAction
  | toggle_fullscreen : WebAction
  | toggle_gallery_mode : WebAction
  | remember : WebAction
  | note : WebAction
  | external_tool (returncode : Int) : WebAction
  | undo : WebAction
  | redo : WebAction

/-- Effect of one web action on the server state, given the session object
looked up for the caller.  `toggle_fullscreen` only echoes a flag,
`toggle_gallery_mode` errors out for web sessions (none has
`gallery_enabled`), and `remember`/`note` append to external log files —
none of the three touches server or session state.  `undo`/`redo` operate on
the server-wide history but run the (inverse) action against the calling
session. -/
def apply_web_action (w : WebState) (sid : String) (s : Session) :
    WebAction → WebState
  | WebAction.navigate_next =>
      { w with sessions := update_session w.sessions sid navigate_next }
  | WebAction.navigate_previous =>
      { w with sessions := update_session w.sessions sid navigate_previous }
  | WebAction.toggle_pause =>
      { w with sessions := update_session w.sessions sid toggle_pause }
  | WebAction.toggle_repeat =>
      { w with sessions := update_session w.sessions sid toggle_repeat }
  | WebAction.toggle_shuffle perm =>
      { w with sessions :=
          update_session w.sessions sid (toggle_shuffle perm w.image_paths) }
  | WebAction.increase_speed =>
      { w with sessions := update_session w.sessions sid increase_speed }
  | WebAction.decrease_speed =>
      { w with sessions := update_session w.sessions sid decrease_speed }
  | WebAction.toggle_fullscreen => w
  | WebAction.toggle_gallery_mode => w
  | WebAction.remember => w
  | WebAction.note => w
  | WebAction.external_tool returncode =>
      let r := external_tool_execute returncode w.image_paths s
      { w with image_paths := r.1,
               sessions := update_session w.sessions sid (fun _ => r.2) }
  | WebAction.undo =>
      let r := w.history.undo s
      { w with history := r.1,
               sessions := update_session w.sessions sid (fun _ => r.2.1) }
  | WebAction.redo =>
      let r := w.history.redo s
      { w with history := r.1,
               sessions := update_session w.sessions sid (fun _ => r.2.1) }

/-- Dispatch one web request: look up the caller's session (`_require_session`)
and execute the action against it; an unknown session id changes nothing. -/
def execute_web_action (w : WebState) (sid : String) (a : WebAction) : WebState :=
  match w.sessions.lookup sid with
  | none => w
  | some s => apply_web_action w sid s a

/-- Everything a session observes: its own `SlideshowContext` fields plus the
`image_paths` list the context aliases (`session.image_paths` IS the shared
list in web mode). -/
def observe (w : WebState) (sid : String) : Option (Session × List String) :=
  (w.sessions.lookup sid).map (fun s => (s, w.image_paths))

/-- A concrete fresh web session over two shared items, as `create_session`
builds it without shuffle-on-start. -/
def sample_session : Session :=
  { current_index := 0, image_order := [0, 1], «repeat» := false,
    shuffle := false, is_paused := false, repeat_count := 0,
    speed_seconds := 3, always_on_top := false }

/-- A concrete server with two items and two independent sessions. -/
def sample_web_state : WebState :=
  { image_paths := ["a", "b"],
    sessions := [("s1", sample_session), ("s2", sample_session)],
    history := { history := [], redo_stack := [], max_history := 50 } }

/-- C2 fails on the code: an external tool exiting with code 1, executed in
one web session, pops the current entry out of the `image_paths` list that
every session shares — the shared item list after the action differs from
what it was before. -/
theorem external_tool_mutates_shared_list :
    (execute_web_action sample_web_state "s1" (WebAction.external_tool 1)).image_paths
      = ["b"] ∧
    (["b"] : List String) ≠ sample_web_state.image_paths := by
  constructor
  · rfl
  · decide

/-- C3 fails on the code: executing an action (an external tool exiting 1)
against session `s1` changes what session `s2` observes, because both
sessions alias the one shared `image_paths` list. -/
theorem sessions_not_independent :
    observe (execute_web_action sample_web_state "s1" (WebAction.external_tool 1)) "s2"
      ≠ observe sample_web_state "s2" := by
  decide

/-- The session-local web actions: everything except the external tools
(which mutate the shared `image_paths`) and undo/redo (which operate on the
server-wide shared history). -/
def session_local : WebAction → Prop
  | WebAction.external_tool _ => False
  | WebAction.undo => False
  | WebAction.redo => False
  | _ => True

theorem lookup_update_ne (l : List (String × Session)) (sid sid' : String)
    (f : Session → Session) (hne : sid' ≠ sid) :
    (update_session l sid f).lookup sid' = l.lookup sid' := by
  induction l with
  | nil => rfl
  | cons p t ih =>
    unfold update_session at ih ⊢
    by_cases hp : p.1 = sid
    · rw [List.map_cons, if_pos hp]
      have hk : (sid' == p.1) = false := by
        simp [hp]
        exact hne
      simp only [List.lookup, hk]
      exact ih
    · rw [List.map_cons, if_neg hp]
      simp only [List.lookup]
      by_cases hq : sid' = p.1
      · simp [hq]
      · have hk : (sid' == p.1) = false := by simp [hq]
        simp only [hk]
        exact ih

/-- C3 corrected: for the session-local actions — navigation, the
pause/repeat/shuffle toggles, the speed changes, fullscreen, gallery,
remember and note — executing against one session leaves everything any
other session observes, and the server's undo/redo history, unchanged.  (The
claim as frozen fails for external tools and undo/redo: the history is one
server-wide instance and `image_paths` is aliased by every session; see the
counterexample.) -/
theorem session_local_actions_isolated (w : WebState) (sid sid' : String)
    (a : WebAction) (hlocal : session_local a) (hne : sid' ≠ sid) :
    observe (execute_web_action w sid a) sid' = observe w sid' ∧
      (execute_web_action w sid a).history = w.history := by
  unfold execute_web_action
  cases hl : w.sessions.lookup sid with
  | none => exact ⟨rfl, rfl⟩
  | some s =>
    cases a with
    | external_tool rc => exact absurd hlocal (by simp [session_local])
    | undo => exact absurd hlocal (by simp [session_local])
    | redo => exact absurd hlocal (by simp [session_local])
    | toggle_fullscreen => exact ⟨rfl, rfl⟩
    | toggle_gallery_mode => exact ⟨rfl, rfl⟩
    | remember => exact ⟨rfl, rfl⟩
    | note => exact ⟨rfl, rfl⟩
    | navigate_next =>
        exact ⟨by unfold observe apply_web_action
                  rw [lookup_update_ne w.sessions sid sid' _ hne], rfl⟩
    | navigate_previous =>
        exact ⟨by unfold observe apply_web_action
                  rw [lookup_update_ne w.sessions sid sid' _ hne], rfl⟩
    | toggle_pause =>
        exact ⟨by unfold observe apply_web_action
                  rw [lookup_update_ne w.sessions sid sid' _ hne], rfl⟩
    | toggle_repeat =>
        exact ⟨by unfold observe apply_web_action
                  rw [lookup_update_ne w.sessions sid sid' _ hne], rfl⟩
    | toggle_shuffle perm =>
        exact ⟨by unfold observe apply_web_action
                  rw [lookup_update_ne w.sessions sid sid' _ hne], rfl⟩
    | increase_speed =>
        exact ⟨by unfold observe apply_web_action
                  rw [lookup_update_ne w.sessions sid sid' _ hne], rfl⟩
    | decrease_speed =>
        exact ⟨by unfold observe apply_web_action
                  rw [lookup_update_ne w.sessions sid sid' _ hne], rfl⟩

/-- Witness for the corrected C3 at a concrete two-session server. -/
theorem session_local_actions_isolated_witness :
    session_local WebAction.navigate_next ∧ ("s2" : String) ≠ "s1" ∧
    (observe (execute_web_action sample_web_state "s1" WebAction.navigate_next) "s2" =
        observe sample_web_state "s2" ∧
      (execute_web_action sample_web_state "s1" WebAction.navigate_next).history =
        sample_web_state.history) :=
  ⟨trivial, by decide,
   session_local_actions_isolated sample_web_state "s1" "s2"
     WebAction.navigate_next trivial (by decide)⟩

end QSlideshow
